import Mathlib

/-!
Shallow embedding of the core of pipelinewise-tap-s3-csv:
`tap_s3_csv/conversion.py` (header normalization and schema inference) and
`tap_s3_csv/__init__.py` (the stream synchronization orchestrator).

Rows, samples and configuration dictionaries are rendered as insertion-ordered
association lists and structures; the external messytables guessers
(`headers_guess`, `type_guess`) are modelled from the spec, as noted on the
definitions concerned.
-/

namespace TapS3Csv

/-- Row sample: one csv row sample, an insertion-ordered mapping from column
name to scalar value (a Python dict in the source). -/
abbrev Sample := List (String × String)

/-- Header computation of the sample normalizer `_csv2bytesio`
(conversion.py lines 75-80): walk the samples in order and append every key
not already present, producing a unique header list. -/
def buildHeader (data : List Sample) : List String :=
  data.foldl
    (fun header datum =>
      datum.foldl
        (fun header item => if item.1 ∈ header then header else header ++ [item.1])
        header)
    []

/-- Stated from the spec's words for comparison (section 3, Header Set): the
de-duplicated first-occurrence union of a flat list of keys. -/
def firstOccurrenceDedup (keys : List String) : List String :=
  keys.foldl (fun acc k => if k ∈ acc then acc else acc ++ [k]) []

/-- Column of cells the tabular buffer holds for header key h: one cell per
sample, the sample's value for h, or the csv writer's empty restval when the
sample lacks h (`csv.DictWriter(sio, fieldnames=header)` in `_csv2bytesio`). -/
def columnValues (data : List Sample) (h : String) : List String :=
  data.map (fun datum => (List.lookup h datum).getD "")

/-- Modelled from the spec: the integer parse test of the external strict
type-guesser (messytables IntegerType) — an optionally signed, non-empty run
of digits. -/
def isIntegerString (s : String) : Bool :=
  let t : List Char :=
    match s.data with
    | c :: rest => if c == '-' || c == '+' then rest else c :: rest
    | [] => []
  !t.isEmpty && t.all Char.isDigit

/-- Modelled from the spec: the decimal parse test of the external strict
type-guesser (messytables DecimalType) — an optionally signed digit run with
at most one fractional point and at least one digit. -/
def isDecimalString (s : String) : Bool :=
  let t : List Char :=
    match s.data with
    | c :: rest => if c == '-' || c == '+' then rest else c :: rest
    | [] => []
  let intPart := t.takeWhile Char.isDigit
  match t.dropWhile Char.isDigit with
  | [] => !intPart.isEmpty
  | '.' :: frac => (!intPart.isEmpty || !frac.isEmpty) && frac.all Char.isDigit
  | _ => false

/-- Coarse column classification of the strict type guesser. -/
inductive GuessedType where
  | integer
  | decimal
  | str
deriving DecidableEq, Repr

/-- Modelled from the spec: strict per-column type guessing (the external
`type_guess(row_set.sample, strict=True)`) — a column is classified integer or
decimal only when every sampled non-null cell parses as that type; any parse
failure demotes the column to string (spec section 4.2 step 4). -/
def guessColumnType (values : List String) : GuessedType :=
  let nonNull := values.filter (fun v => v != "")
  if nonNull.all isIntegerString then .integer
  else if nonNull.all isDecimalString then .decimal
  else .str

/-- Json-schema type declaration for one column: the `type` array and the
optional `format` key (conversion.py builds four such dictionaries). -/
structure TypeDecl where
  type : List String
  format : Option String
deriving DecidableEq, Repr

/-- Declaration written for date-override columns (conversion.py line 41). -/
def dateTimeDecl : TypeDecl := ⟨["null", "string"], some "date-time"⟩

/-- Nullable-string declaration (conversion.py lines 43, 54-56, 60-62). -/
def stringDecl : TypeDecl := ⟨["null", "string"], none⟩

/-- Nullable-integer declaration (conversion.py lines 46-48). -/
def integerDecl : TypeDecl := ⟨["null", "integer"], none⟩

/-- Nullable-number declaration (conversion.py lines 50-52). -/
def numberDecl : TypeDecl := ⟨["null", "number"], none⟩

/-- Table specification dictionary as generate_schema and do_sync read it:
table_name plus the override lists and guess flag with their `.get`
defaults. -/
structure TableSpec where
  table_name : String
  date_overrides : List String := []
  string_overrides : List String := []
  guess_types : Bool := true
deriving DecidableEq, Repr

/-- Per-column branch of generate_schema's guessing loop (conversion.py lines
40-56): date override first, then string override, then the guessed type
mapped to its nullable declaration. -/
def schemaDeclFor (samples : List Sample) (table_spec : TableSpec) (h : String) : TypeDecl :=
  if h ∈ table_spec.date_overrides then dateTimeDecl
  else if h ∈ table_spec.string_overrides then stringDecl
  else
    match guessColumnType (columnValues samples h) with
    | .integer => integerDecl
    | .decimal => numberDecl
    | .str => stringDecl

/-- generate_schema (conversion.py lines 14-64): the schema as an
insertion-ordered association list keyed by the detected header. The external
guessers are modelled from the spec: the detected header of the buffer built
by `_csv2bytesio` is its first row (the unique header list), and the strict
type guesser yields one classification per header column. -/
def generate_schema (samples : List Sample) (table_spec : TableSpec) :
    List (String × TypeDecl) :=
  let headers := buildHeader samples
  if table_spec.guess_types then
    headers.map (fun h => (h, schemaDeclFor samples table_spec h))
  else
    headers.map (fun h => (h, stringDecl))

/-- Run state threaded through the sync loop: an opaque persisted mapping in
the source, rendered as an association list. -/
abbrev RunState := List (String × String)

/-- Stream definition from the catalog: the tap_stream_id, the schema payload,
and the root metadata entry's selected flag and table-key-properties (absent
entries are none, mirroring the `.get` lookups on the metadata map). -/
structure StreamDef where
  tap_stream_id : String
  schema : String
  selected : Option Bool := none
  table_key_properties : Option (List String) := none
deriving DecidableEq, Repr

/-- Configuration keys the sync loop reads: tables, table_suffix (absent means
the empty suffix) and warning_if_no_files (absent means false). -/
structure Config where
  tables : List TableSpec
  table_suffix : Option String := none
  warning_if_no_files : Bool := false
deriving Repr

/-- Catalog handed to synchronization: its ordered stream list. -/
structure Catalog where
  streams : List StreamDef
deriving Repr

/-- stream_is_selected (__init__.py lines 49-55): the selected flag under the
root metadata entry, defaulting to true when absent. -/
def stream_is_selected (selected : Option Bool) : Bool :=
  selected.getD true

/-- Observable protocol emissions and delegate invocations of the sync loop:
singer.write_state, singer.write_schema and the sync_stream delegate call with
the table spec it receives. -/
inductive Event where
  | writeState (state : RunState)
  | writeSchema (streamName : String) (schema : String) (keyProperties : Option (List String))
  | syncStream (streamName : String) (table_spec : TableSpec)
deriving DecidableEq, Repr

/-- Outcome of a sync run: the events emitted before the run finished or
aborted, and the aborting error message when one was raised. -/
structure SyncResult where
  events : List Event
  error : Option String
deriving DecidableEq, Repr

/-- Table lookup of the sync loop (__init__.py lines 72-77): the first
configured table whose table_name concatenated with the configured suffix
equals the stream identifier. -/
def findTableSpec (config : Config) (stream_name : String) : Option TableSpec :=
  config.tables.find?
    (fun s => s.table_name ++ config.table_suffix.getD "" == stream_name)

/-- Stream loop of do_sync (__init__.py lines 68-93). The `prev` accumulator
mirrors the Python local table_spec, which is function-scoped and survives
loop iterations: after a failed lookup in tolerant mode control falls through
without a continue, so the selected-stream body runs with the previous
iteration's value, or raises UnboundLocalError when no iteration has bound
it yet (the slip the spec's open question records). -/
def syncStreamsLoop (config : Config) (state : RunState) :
    List StreamDef → Option TableSpec → List Event → SyncResult
  | [], _, acc => ⟨acc, none⟩
  | stream :: rest, prev, acc =>
    let stream_name := stream.tap_stream_id
    let found := findTableSpec config stream_name
    if found.isNone && !config.warning_if_no_files then
      ⟨acc, some ("Expected table " ++ stream_name ++ " not found in catalog")⟩
    else
      let table_spec := found.orElse (fun _ => prev)
      if !stream_is_selected stream.selected then
        syncStreamsLoop config state rest table_spec acc
      else
        let acc2 := acc ++
          [Event.writeState state,
           Event.writeSchema stream_name stream.schema stream.table_key_properties]
        match table_spec with
        | none =>
          ⟨acc2,
           some "UnboundLocalError: local variable table_spec referenced before assignment"⟩
        | some ts =>
          syncStreamsLoop config state rest table_spec
            (acc2 ++ [Event.syncStream stream_name ts])

/-- do_sync (__init__.py lines 58-95): run the stream loop over the catalog
with the supplied state. -/
def do_sync (config : Config) (catalog : Catalog) (state : RunState) : SyncResult :=
  syncStreamsLoop config state catalog.streams none []

/-- Stream loop of do_sync_run (__init__.py lines 120-145), the source's
textual duplicate of do_sync's loop, transcribed separately so the two entry
points can be compared. -/
def syncStreamsLoopRun (config : Config) (state : RunState) :
    List StreamDef → Option TableSpec → List Event → SyncResult
  | [], _, acc => ⟨acc, none⟩
  | stream :: rest, prev, acc =>
    let stream_name := stream.tap_stream_id
    let found := findTableSpec config stream_name
    if found.isNone && !config.warning_if_no_files then
      ⟨acc, some ("Expected table " ++ stream_name ++ " not found in catalog")⟩
    else
      let table_spec := found.orElse (fun _ => prev)
      if !stream_is_selected stream.selected then
        syncStreamsLoopRun config state rest table_spec acc
      else
        let acc2 := acc ++
          [Event.writeState state,
           Event.writeSchema stream_name stream.schema stream.table_key_properties]
        match table_spec with
        | none =>
          ⟨acc2,
           some "UnboundLocalError: local variable table_spec referenced before assignment"⟩
        | some ts =>
          syncStreamsLoopRun config state rest table_spec
            (acc2 ++ [Event.syncStream stream_name ts])

/-- do_sync_run (__init__.py lines 98-147): an absent catalog triggers
discovery and a reload from the catalog file (external I/O outside this core,
left unmodelled as none); an absent state defaults to the empty mapping; then
the duplicated stream loop runs. -/
def do_sync_run (config : Config) (catalog : Option Catalog) (state : Option RunState) :
    Option SyncResult :=
  match catalog with
  | none => none
  | some cat => some (syncStreamsLoopRun config (state.getD []) cat.streams none [])

/-! Helper lemmas about the header fold and the schema association list. -/

lemma mem_foldl_insert (l : List String) (acc : List String) (k : String) :
    (k ∈ l.foldl (fun a x => if x ∈ a then a else a ++ [x]) acc) ↔ k ∈ acc ∨ k ∈ l := by
  induction l generalizing acc with
  | nil => simp
  | cons x xs ih =>
    simp only [List.foldl_cons]
    rw [ih]
    by_cases hx : x ∈ acc
    · simp only [if_pos hx, List.mem_cons]
      constructor
      · rintro (h | h)
        · exact Or.inl h
        · exact Or.inr (Or.inr h)
      · rintro (h | h | h)
        · exact Or.inl h
        · exact Or.inl (h ▸ hx)
        · exact Or.inr h
    · simp only [if_neg hx, List.mem_append, List.mem_singleton, List.mem_cons]
      tauto

lemma nodup_foldl_insert (l : List String) (acc : List String) (hacc : acc.Nodup) :
    (l.foldl (fun a x => if x ∈ a then a else a ++ [x]) acc).Nodup := by
  induction l generalizing acc with
  | nil => simpa
  | cons x xs ih =>
    simp only [List.foldl_cons]
    apply ih
    by_cases hx : x ∈ acc
    · simpa [hx]
    · simp [hx, List.nodup_append, hacc]

lemma foldl_samples_eq_foldl_keys (data : List Sample) (acc : List String) :
    data.foldl
        (fun header datum =>
          datum.foldl
            (fun header item => if item.1 ∈ header then header else header ++ [item.1])
            header)
        acc
      = ((data.map (fun s => s.map Prod.fst)).flatten).foldl
          (fun a k => if k ∈ a then a else a ++ [k]) acc := by
  induction data generalizing acc with
  | nil => rfl
  | cons d ds ih =>
    simp only [List.foldl_cons, List.map_cons, List.flatten_cons, List.foldl_append]
    rw [ih]
    congr 1
    rw [List.foldl_map]

lemma buildHeader_eq_dedup_keys (data : List Sample) :
    buildHeader data = firstOccurrenceDedup ((data.map (fun s => s.map Prod.fst)).flatten) :=
  foldl_samples_eq_foldl_keys data []

lemma buildHeader_nodup (data : List Sample) : (buildHeader data).Nodup := by
  rw [buildHeader_eq_dedup_keys]
  exact nodup_foldl_insert _ [] List.nodup_nil

lemma mem_buildHeader (data : List Sample) (k : String) :
    k ∈ buildHeader data ↔ ∃ s ∈ data, k ∈ s.map Prod.fst := by
  rw [buildHeader_eq_dedup_keys, firstOccurrenceDedup, mem_foldl_insert]
  simp [List.mem_flatten]

lemma lookup_map_pair (l : List String) (f : String → TypeDecl) (h : String) :
    List.lookup h (l.map (fun x => (x, f x))) = if h ∈ l then some (f h) else none := by
  induction l with
  | nil => simp [List.lookup]
  | cons x xs ih =>
    by_cases hx : h = x
    · subst hx
      simp [List.lookup_cons]
    · have hbeq : (h == x) = false := by simp [hx]
      simp [List.lookup_cons, hbeq, ih, hx]

lemma map_fst_pair (l : List String) (f : String → TypeDecl) :
    (l.map (fun h => (h, f h))).map Prod.fst = l := by
  induction l with
  | nil => rfl
  | cons x xs ih => simp [ih]

lemma lookup_generate_schema (samples : List Sample) (table_spec : TableSpec) (h : String)
    (hguess : table_spec.guess_types = true) (hmem : h ∈ buildHeader samples) :
    List.lookup h (generate_schema samples table_spec)
      = some (schemaDeclFor samples table_spec h) := by
  unfold generate_schema
  rw [hguess]
  simp only [if_true, lookup_map_pair, if_pos hmem]

lemma guessColumnType_cases (values : List String) :
    (guessColumnType values = .integer ↔
        (values.filter (fun v => v != "")).all isIntegerString = true) ∧
      (guessColumnType values = .decimal →
        (values.filter (fun v => v != "")).all isDecimalString = true) ∧
      (¬(values.filter (fun v => v != "")).all isIntegerString = true →
        ¬(values.filter (fun v => v != "")).all isDecimalString = true →
        guessColumnType values = .str) := by
  unfold guessColumnType
  by_cases h1 : (values.filter (fun v => v != "")).all isIntegerString = true
  · simp [h1]
  · by_cases h2 : (values.filter (fun v => v != "")).all isDecimalString = true
    · simp [h1, h2]
    · simp [h1, h2]

/-! Claim theorems. -/

/-- C2: when guess_types is false, generate_schema declares every column of
the detected header as exactly the nullable string declaration with no format
key, regardless of the sampled values. -/
theorem guess_types_off_all_string (samples : List Sample) (table_spec : TableSpec)
    (hoff : table_spec.guess_types = false) :
    (generate_schema samples table_spec).map Prod.fst = buildHeader samples ∧
      ∀ p ∈ generate_schema samples table_spec, p.2 = stringDecl := by
  unfold generate_schema
  rw [hoff]
  constructor
  · simpa using map_fst_pair (buildHeader samples) (fun _ => stringDecl)
  · intro p hp
    simp only [Bool.false_eq_true, if_false, List.mem_map] at hp
    obtain ⟨h, _, rfl⟩ := hp
    rfl

/-- Witness for C2 at samples whose values would otherwise guess as integers. -/
theorem guess_types_off_all_string_witness :
    (generate_schema [[("a", "1")], [("b", "2")]] ⟨"t", [], [], false⟩).map Prod.fst
        = buildHeader [[("a", "1")], [("b", "2")]] ∧
      ∀ p ∈ generate_schema [[("a", "1")], [("b", "2")]] ⟨"t", [], [], false⟩,
        p.2 = stringDecl :=
  guess_types_off_all_string [[("a", "1")], [("b", "2")]] ⟨"t", [], [], false⟩ rfl

/-- C3: the header computed while normalizing samples is the de-duplicated
first-occurrence union of all keys across all samples, containing each key
exactly once, and generate_schema's key list equals that header, so the
header's size equals the number of schema columns. -/
theorem header_is_first_occurrence_union (samples : List Sample) (table_spec : TableSpec) :
    (buildHeader samples).Nodup ∧
      (∀ k, k ∈ buildHeader samples ↔ ∃ s ∈ samples, k ∈ s.map Prod.fst) ∧
      buildHeader samples
        = firstOccurrenceDedup ((samples.map (fun s => s.map Prod.fst)).flatten) ∧
      (generate_schema samples table_spec).map Prod.fst = buildHeader samples ∧
      (generate_schema samples table_spec).length = (buildHeader samples).length := by
  refine ⟨buildHeader_nodup samples, mem_buildHeader samples,
    buildHeader_eq_dedup_keys samples, ?_, ?_⟩
  · unfold generate_schema
    by_cases hg : table_spec.guess_types = true
    · simpa [hg] using map_fst_pair (buildHeader samples) (schemaDeclFor samples table_spec)
    · simpa [hg] using map_fst_pair (buildHeader samples) (fun _ => stringDecl)
  · unfold generate_schema
    by_cases hg : table_spec.guess_types = true <;> simp [hg]

/-- C4: a column named in date_overrides is declared nullable date-time string
regardless of its guessed type, so also when every sampled value parses as
integer and when the column sits in string_overrides too: the date override
takes precedence. -/
theorem date_override_wins (samples : List Sample) (table_spec : TableSpec) (h : String)
    (hguess : table_spec.guess_types = true)
    (hmem : h ∈ buildHeader samples)
    (hdate : h ∈ table_spec.date_overrides) :
    List.lookup h (generate_schema samples table_spec) = some dateTimeDecl := by
  rw [lookup_generate_schema samples table_spec h hguess hmem]
  unfold schemaDeclFor
  rw [if_pos hdate]

/-- Witness for C4: an integer-valued column listed in both override lists
still receives the date-time declaration. -/
theorem date_override_wins_witness :
    List.lookup "a" (generate_schema [[("a", "1")], [("a", "2")]] ⟨"t", ["a"], ["a"], true⟩)
      = some dateTimeDecl :=
  date_override_wins [[("a", "1")], [("a", "2")]] ⟨"t", ["a"], ["a"], true⟩ "a"
    rfl (by decide) (by decide)

/-- C8: every declaration in a generated schema admits null: on every path it
is one of the four nullable declarations. -/
theorem schema_decls_nullable (samples : List Sample) (table_spec : TableSpec)
    (p : String × TypeDecl) (hp : p ∈ generate_schema samples table_spec) :
    "null" ∈ p.2.type ∧
      (p.2 = dateTimeDecl ∨ p.2 = stringDecl ∨ p.2 = integerDecl ∨ p.2 = numberDecl) := by
  have hfour :
      p.2 = dateTimeDecl ∨ p.2 = stringDecl ∨ p.2 = integerDecl ∨ p.2 = numberDecl := by
    unfold generate_schema at hp
    by_cases hg : table_spec.guess_types = true
    · rw [hg] at hp
      simp only [if_true, List.mem_map] at hp
      obtain ⟨h, _, rfl⟩ := hp
      unfold schemaDeclFor
      by_cases h1 : h ∈ table_spec.date_overrides
      · simp [h1]
      · by_cases h2 : h ∈ table_spec.string_overrides
        · simp [h1, h2]
        · simp only [if_neg h1, if_neg h2]
          cases guessColumnType (columnValues samples h) <;> simp
    · simp only [if_neg hg, List.mem_map] at hp
      obtain ⟨h, _, rfl⟩ := hp
      simp
  refine ⟨?_, hfour⟩
  rcases hfour with h | h | h | h <;>
    simp [h, dateTimeDecl, stringDecl, integerDecl, numberDecl]

/-- Witness for C8 at a concrete schema entry. -/
theorem schema_decls_nullable_witness :
    "null" ∈ (("a", stringDecl) : String × TypeDecl).2.type ∧
      ((("a", stringDecl) : String × TypeDecl).2 = dateTimeDecl ∨
        (("a", stringDecl) : String × TypeDecl).2 = stringDecl ∨
        (("a", stringDecl) : String × TypeDecl).2 = integerDecl ∨
        (("a", stringDecl) : String × TypeDecl).2 = numberDecl) :=
  schema_decls_nullable [[("a", "x")]] ⟨"t", [], [], true⟩ ("a", stringDecl) (by decide)

/-- C5: under strict guessing a non-override column with some non-null value
parsing as neither integer nor decimal is declared nullable string, never
integer or number; a column is declared integer (resp. number) only when every
non-null value parses as integer (resp. decimal). -/
theorem strict_guess_demotes_to_string (samples : List Sample) (table_spec : TableSpec)
    (h : String)
    (hguess : table_spec.guess_types = true)
    (hmem : h ∈ buildHeader samples)
    (hdate : h ∉ table_spec.date_overrides)
    (hstro : h ∉ table_spec.string_overrides) :
    ((∃ v ∈ columnValues samples h,
        v ≠ "" ∧ isIntegerString v = false ∧ isDecimalString v = false) →
      List.lookup h (generate_schema samples table_spec) = some stringDecl) ∧
      (List.lookup h (generate_schema samples table_spec) = some integerDecl →
        ∀ v ∈ columnValues samples h, v ≠ "" → isIntegerString v = true) ∧
      (List.lookup h (generate_schema samples table_spec) = some numberDecl →
        ∀ v ∈ columnValues samples h, v ≠ "" → isDecimalString v = true) := by
  have hlk := lookup_generate_schema samples table_spec h hguess hmem
  rw [hlk]
  unfold schemaDeclFor
  rw [if_neg hdate, if_neg hstro]
  obtain ⟨hci, hcd, hcs⟩ := guessColumnType_cases (columnValues samples h)
  refine ⟨?_, ?_, ?_⟩
  · rintro ⟨v, hv, hne, hint, hdec⟩
    have hvmem : v ∈ (columnValues samples h).filter (fun v => v != "") :=
      List.mem_filter.mpr ⟨hv, by simp [bne_iff_ne, hne]⟩
    have hi : ¬((columnValues samples h).filter (fun v => v != "")).all isIntegerString = true := by
      rw [List.all_eq_true]
      intro hall
      exact absurd (hall v hvmem) (by simp [hint])
    have hd : ¬((columnValues samples h).filter (fun v => v != "")).all isDecimalString = true := by
      rw [List.all_eq_true]
      intro hall
      exact absurd (hall v hvmem) (by simp [hdec])
    rw [hcs hi hd]
  · intro hdecl v hv hne
    rcases hg : guessColumnType (columnValues samples h) with _ | _ | _
    · have hall := hci.mp hg
      rw [List.all_eq_true] at hall
      exact hall v (List.mem_filter.mpr ⟨hv, by simp [bne_iff_ne, hne]⟩)
    · rw [hg] at hdecl
      exact absurd (Option.some.inj hdecl) (by decide)
    · rw [hg] at hdecl
      exact absurd (Option.some.inj hdecl) (by decide)
  · intro hdecl v hv hne
    rcases hg : guessColumnType (columnValues samples h) with _ | _ | _
    · rw [hg] at hdecl
      exact absurd (Option.some.inj hdecl) (by decide)
    · have hall := hcd hg
      rw [List.all_eq_true] at hall
      exact hall v (List.mem_filter.mpr ⟨hv, by simp [bne_iff_ne, hne]⟩)
    · rw [hg] at hdecl
      exact absurd (Option.some.inj hdecl) (by decide)

/-- Witness for C5 on the column values 1, 2, x: the final value fails both
parses, so the column is declared nullable string. -/
theorem strict_guess_demotes_to_string_witness :
    List.lookup "a" (generate_schema [[("a", "1")], [("a", "2")], [("a", "x")]]
        ⟨"t", [], [], true⟩) = some stringDecl :=
  (strict_guess_demotes_to_string [[("a", "1")], [("a", "2")], [("a", "x")]]
      ⟨"t", [], [], true⟩ "a" rfl (by decide) (by decide) (by decide)).1
    ⟨"x", by decide, by decide, by decide, by decide⟩

/-- C7: a configured table matches a stream exactly when its table_name
concatenated with the configured suffix (empty when absent) equals the stream
identifier, and when no configured table matches and warning_if_no_files is
unset, do_sync aborts with the expected-table error before emitting
anything. -/
theorem table_match_and_missing_table_error (config : Config) (stream : StreamDef)
    (rest : List StreamDef) (state : RunState) :
    (∀ n ts, findTableSpec config n = some ts →
        ts ∈ config.tables ∧ ts.table_name ++ config.table_suffix.getD "" = n) ∧
      (∀ n, (∃ t ∈ config.tables, t.table_name ++ config.table_suffix.getD "" = n) →
        (findTableSpec config n).isSome = true) ∧
      (config.warning_if_no_files = false →
        findTableSpec config stream.tap_stream_id = none →
        do_sync config ⟨stream :: rest⟩ state =
          ⟨[], some ("Expected table " ++ stream.tap_stream_id ++ " not found in catalog")⟩) := by
  refine ⟨?_, ?_, ?_⟩
  · intro n ts hts
    refine ⟨List.mem_of_find?_eq_some hts, ?_⟩
    have hp := List.find?_some hts
    simpa using hp
  · intro n hex
    rw [findTableSpec, List.find?_isSome]
    obtain ⟨t, htmem, hteq⟩ := hex
    exact ⟨t, htmem, by simp [hteq]⟩
  · intro hwarn hfound
    simp [do_sync, syncStreamsLoop, hfound, hwarn]

/-- C10: the table lookup precedes the selection check: an unmatched stream in
non-tolerant mode aborts the run with the expected-table error even when the
stream's selected flag is false, from any position of the loop. -/
theorem missing_table_error_even_if_not_selected (config : Config) (stream : StreamDef)
    (rest : List StreamDef) (state : RunState) (prev : Option TableSpec) (acc : List Event)
    (hwarn : config.warning_if_no_files = false)
    (hfound : findTableSpec config stream.tap_stream_id = none)
    (_hsel : stream.selected = some false) :
    syncStreamsLoop config state (stream :: rest) prev acc =
        ⟨acc, some ("Expected table " ++ stream.tap_stream_id ++ " not found in catalog")⟩ ∧
      do_sync config ⟨stream :: rest⟩ state =
        ⟨[], some ("Expected table " ++ stream.tap_stream_id ++ " not found in catalog")⟩ := by
  constructor <;> simp [do_sync, syncStreamsLoop, hfound, hwarn]

/-- Witness for C10: a not-selected stream with no table spec still aborts the
run in non-tolerant mode instead of being skipped. -/
theorem missing_table_error_even_if_not_selected_witness :
    do_sync ⟨[], none, false⟩ ⟨[⟨"s1", "sch", some false, none⟩]⟩ [] =
      ⟨[], some "Expected table s1 not found in catalog"⟩ :=
  (missing_table_error_even_if_not_selected ⟨[], none, false⟩ ⟨"s1", "sch", some false, none⟩
      [] [] none [] rfl rfl rfl).2

/-- C1 at the failing input, recording the defect: with warning_if_no_files
set, a selected stream with no matching table is not skipped silently — the
loop falls through, emits state and schema for it, and invokes the delegate
with the previous stream's table spec. -/
theorem tolerant_unmatched_stream_not_skipped :
    do_sync ⟨[⟨"a", [], [], true⟩], none, true⟩
        ⟨[⟨"a", "schA", none, none⟩, ⟨"b", "schB", some true, none⟩]⟩ [] =
      ⟨[Event.writeState [], Event.writeSchema "a" "schA" none,
        Event.syncStream "a" ⟨"a", [], [], true⟩,
        Event.writeState [], Event.writeSchema "b" "schB" none,
        Event.syncStream "b" ⟨"a", [], [], true⟩], none⟩ := by
  rfl

/-- C6 at the failing input, recording the defect: a selected stream whose
table lookup failed in tolerant mode, with no previously bound table spec,
gets write_state and write_schema but no sync_stream invocation — the run
aborts on the unbound local instead. -/
theorem selected_stream_missing_sync_invocation :
    do_sync ⟨[], none, true⟩ ⟨[⟨"s1", "sch1", some true, some ["id"]⟩]⟩ [("k", "v")] =
      ⟨[Event.writeState [("k", "v")], Event.writeSchema "s1" "sch1" (some ["id"])],
        some "UnboundLocalError: local variable table_spec referenced before assignment"⟩ := by
  rfl

lemma syncStreamsLoopRun_eq_syncStreamsLoop (config : Config) (state : RunState)
    (streams : List StreamDef) (prev : Option TableSpec) (acc : List Event) :
    syncStreamsLoopRun config state streams prev acc
      = syncStreamsLoop config state streams prev acc := by
  induction streams generalizing prev acc with
  | nil => rfl
  | cons s rest ih =>
    simp only [syncStreamsLoopRun, syncStreamsLoop]
    split
    · rfl
    · split
      · exact ih _ _
      · split
        · rfl
        · exact ih _ _

/-- C9: given a non-None catalog and a non-None state, do_sync_run produces
exactly do_sync's result: the same per-stream skips, the same error, and the
same write_state, write_schema and sync_stream events with the same
arguments, in the same order. -/
theorem do_sync_run_matches_do_sync (config : Config) (catalog : Catalog) (state : RunState) :
    do_sync_run config (some catalog) (some state) = some (do_sync config catalog state) := by
  show some (syncStreamsLoopRun config ((some state).getD []) catalog.streams none [])
    = some (do_sync config catalog state)
  rw [syncStreamsLoopRun_eq_syncStreamsLoop]
  rfl

end TapS3Csv
